import Mathlib

/-!
Verification development for the sauri cache engine (package `cache`).

Go strings are modelled as lists of characters.  Pure helper functions
(`matchWildcard`, `strings.Split` on `"*"`, `strings.HasPrefix`,
`strings.HasSuffix`, `strings.TrimPrefix`) are translated directly from the
source.  The two backend stores are modelled as association lists from
namespaced keys to entries; the gob value codec is an external library and is
modelled as a faithful invertible serialization of the single-entry map it
receives.
-/

namespace Sauri

/-- Go strings, modelled as lists of characters. -/
abbrev Str := List Char

/-- Translation of Go `strings.Split(s, "*")`: splits at every occurrence of
the character `*`; the result is always non-empty and the separators are
dropped. -/
def splitStar : Str → List Str
  | [] => [[]]
  | c :: rest =>
    let ps := splitStar rest
    if c = '*' then [] :: ps
    else (c :: ps.headI) :: ps.tail

/-- Translation of Go `strings.HasPrefix` / `bytes.HasPrefix`. -/
def isPfx : Str → Str → Bool
  | [], _ => true
  | _ :: _, [] => false
  | a :: as, b :: bs => a == b && isPfx as bs

/-- Translation of Go `strings.HasSuffix`: `s` ends with `sfx`. -/
def isSfx (sfx s : Str) : Bool := isPfx sfx.reverse s.reverse

/-- Translation of Go `strings.TrimPrefix`. -/
def trimPfx (p s : Str) : Str := if isPfx p s then s.drop p.length else s

/-- Translation of `matchWildcard` (cache helpers): splits the pattern at
`*`; with no `*` the pattern must equal the string; otherwise the text before
the first `*` must be a prefix of the string and, when the text between the
first and the second `*` is non-empty, it must also be a suffix.  Parts of
the pattern after the second `*` are never consulted. -/
def matchWildcard (str pattern : Str) : Bool :=
  let parts := splitStar pattern
  if parts.length == 1 then str == pattern
  else if !(isPfx parts.headI str) then false
  else if decide (1 < parts.length) && !((parts.getD 1 []).isEmpty)
      && !(isSfx (parts.getD 1 []) str) then false
  else true

/-- Helper for `globMatch`: does `f` hold of some suffix of the string
(including the string itself and the empty suffix)? -/
def tailsAny (f : Str → Bool) : Str → Bool
  | [] => f []
  | c :: s' => f (c :: s') || tailsAny f s'

/-- Helper for `globMatch`: walk a `[...]` character-class body (the text
after the opening bracket), accumulating whether `c` is matched by a listed
character, an escaped character, or an `a-b` range (bounds normalised when
reversed); the class ends at an unescaped `]` or at the end of the pattern,
and the remaining pattern is returned. -/
def classMatch (c : Char) : Str → Bool → Bool × Str
  | [], m => (m, [])
  | ['\\'], m => (m || ('\\' == c), [])
  | '\\' :: y :: rest, m => classMatch c rest (m || (y == c))
  | ']' :: rest, m => (m, rest)
  | x :: '-' :: b :: rest, m =>
    classMatch c rest
      (m || decide ((if x ≤ b then x else b) ≤ c ∧ c ≤ (if x ≤ b then b else x)))
  | x :: rest, m => classMatch c rest (m || (x == c))

/-- Characters the remote store's glob matcher treats as plain literals: the
metacharacters are `*` (any sequence), `?` (any one character), `[` (opens a
character class) and `\` (escape).  A bare `]` outside a class is literal. -/
def globLiteralChar (c : Char) : Bool :=
  !(c == '*' || c == '?' || c == '[' || c == '\\')

/-- Worker for `globMatch`: every step consumes at least one pattern
character and one unit of fuel, so fuel equal to the pattern length never
runs out (the fuel-exhausted arm coincides with the empty-pattern arm on
all reachable inputs). -/
def globMatchAux : Nat → Str → Str → Bool
  | 0, p, s => p.isEmpty && s.isEmpty
  | _ + 1, [], s => s.isEmpty
  | fuel + 1, c :: ps, s =>
    if c = '*' then tailsAny (globMatchAux fuel ps) s
    else if c = '?' then
      match s with
      | [] => false
      | _ :: s' => globMatchAux fuel ps s'
    else if c = '[' then
      match s with
      | [] => false
      | d :: s' =>
        match ps with
        | '^' :: ps' =>
          let r := classMatch d ps' false
          !r.1 && globMatchAux fuel r.2 s'
        | _ =>
          let r := classMatch d ps false
          r.1 && globMatchAux fuel r.2 s'
    else if c = '\\' then
      match ps with
      | [] =>
        match s with
        | [] => false
        | d :: s' => c == d && globMatchAux fuel ps s'
      | x :: ps' =>
        match s with
        | [] => false
        | d :: s' => x == d && globMatchAux fuel ps' s'
    else
      match s with
      | [] => false
      | d :: s' => c == d && globMatchAux fuel ps s'

/-- Model of the remote backend's glob matching as used by the `KEYS`
command and `SCAN ... MATCH` (the server's `stringmatchlen`): `*` matches
any sequence (`tailsAny` tries every split point), `?` matches any single
character, `[...]` matches a character class (`^` negates it), `\` escapes
the next character, and every other character matches itself. -/
def globMatch (p s : Str) : Bool := globMatchAux p.length p s

/-- Association-list lookup; the stores keep one entry per key. -/
def alistLookup : List (Str × α) → Str → Option α
  | [], _ => none
  | (k', v) :: rest, k => if k = k' then some v else alistLookup rest k

/-- Association-list insert-or-replace, keeping the key's position. -/
def alistInsert : List (Str × α) → Str → α → List (Str × α)
  | [], k, v => [(k, v)]
  | (k', v') :: rest, k, v =>
    if k = k' then (k, v) :: rest else (k', v') :: alistInsert rest k v

/-- Association-list removal of a key. -/
def alistErase : List (Str × α) → Str → List (Str × α)
  | [], _ => []
  | (k', v') :: rest, k =>
    if k = k' then rest else (k', v') :: alistErase rest k

/-- Type of cached values (`interface{}` in the source): the development is
polymorphic in the value type `V`. `EntryCache` is the source's
`map[string]interface{}` envelope; every write populates exactly one key. -/
abbrev EntryCache (V : Type) := List (Str × V)

/-- Wire representation produced by the gob codec.  Gob is an external
library; its contract (decoding inverts encoding) is modelled by keeping the
encoded map itself as the byte payload. -/
abbrev GobBytes (V : Type) := List (Str × V)

/-- Decoding failure marker (gob decode errors). -/
inductive DecodeErr : Type where
  | failed
deriving DecidableEq, Repr

/-- Translation of `encodeValue` (gob encoding of the single-entry map). -/
def encodeValue (item : EntryCache V) : GobBytes V := item

/-- Translation of `decodeValue` (gob decoding back into an `EntryCache`);
on bytes produced by `encodeValue` it always succeeds with the original map. -/
def decodeValue (data : GobBytes V) : Except DecodeErr (EntryCache V) := .ok data

/-- Error kinds surfaced by the embedded (Badger) backend methods. -/
inductive CacheErr : Type where
  /-- `Get`: "key not found" (wraps `badger.ErrKeyNotFound`). -/
  | notFound
  /-- `Get`: decode succeeded but the namespaced key is absent from the map. -/
  | decodedKeyMissing
  /-- value decoding failed. -/
  | decodeFailed
  /-- `TTL`: "failed to retrieve TTL" (wraps the transaction error). -/
  | ttlFailed
deriving DecidableEq, Repr

/-- Error kinds surfaced by the remote (Redis) backend methods. -/
inductive RedisErr : Type where
  /-- `Update`: "key %s does not exist". -/
  | keyNotExist
  /-- value decoding failed. -/
  | decodeFailed
deriving DecidableEq, Repr

/-! ## Embedded (Badger) backend

The store is a finite map from full namespaced keys to entries; an entry
carries the gob payload and an absolute expiry timestamp in Unix seconds
(`0` = no TTL, mirroring `badger.Item.ExpiresAt`).  Badger is an ordered LSM
store; the association list's enumeration stands for the store's iteration
order, and a `Seek`/`ValidForPrefix` walk visits exactly the live entries
whose key has the requested byte prefix, which the model obtains by
filtering.  Operations are explicit state transformers; `now` is the current
Unix time in seconds. -/

/-- One Badger entry: gob payload plus absolute expiry (0 = none). -/
structure BEntry (V : Type) where
  value : GobBytes V
  expiresAt : Nat
deriving DecidableEq, Repr

/-- Contents of the Badger store (the `DBConn` handle's state). -/
structure BadgerDB (V : Type) where
  entries : List (Str × BEntry V)
deriving DecidableEq, Repr

/-- The `BadgerCache` receiver: its immutable key prefix. -/
structure BadgerCache : Type where
  Prefix : Str
deriving DecidableEq, Repr

/-- Translation of `BadgerCache.prefixedKey`: `fmt.Sprintf("%s:%s", Prefix, key)`. -/
def BadgerCache.prefixedKey (b : BadgerCache) (key : Str) : Str :=
  b.Prefix ++ ':' :: key

/-- An entry is live when it has no expiry or its expiry lies in the future;
expired entries are treated as absent by every Badger read path. -/
def liveB (now : Nat) (e : BEntry V) : Bool :=
  e.expiresAt == 0 || decide (now < e.expiresAt)

/-- Result of `txn.Get` on a full key: the entry if present and not expired. -/
def bGetRaw (db : BadgerDB V) (key : Str) (now : Nat) : Option (BEntry V) :=
  match alistLookup db.entries key with
  | none => none
  | some e => if liveB now e then some e else none

/-- Translation of `BadgerCache.Set`: encodes the single-entry map keyed by
the full namespaced key and writes it, with expiry `now + d` when a TTL is
supplied (`badger.Entry.WithTTL`). -/
def BadgerCache.Set (b : BadgerCache) (db : BadgerDB V) (now : Nat)
    (keyStr : Str) (value : V) (expires : Option Nat) : BadgerDB V :=
  let finalPrefixedKey := b.prefixedKey keyStr
  let encodedValue := encodeValue [(finalPrefixedKey, value)]
  ⟨alistInsert db.entries finalPrefixedKey
    ⟨encodedValue, match expires with | some d => now + d | none => 0⟩⟩

/-- Translation of `BadgerCache.Update`: the source encodes the new value and
calls `txn.SetEntry` directly — it performs no existence check, so an absent
key is simply created; the transaction succeeds and `nil` is returned. -/
def BadgerCache.Update (b : BadgerCache) (db : BadgerDB V) (now : Nat)
    (keyStr : Str) (value : V) (expires : Option Nat) :
    Except CacheErr (BadgerDB V) :=
  let prefixedKey := b.prefixedKey keyStr
  let encoded := encodeValue [(prefixedKey, value)]
  .ok ⟨alistInsert db.entries prefixedKey
    ⟨encoded, match expires with | some d => now + d | none => 0⟩⟩

/-- Translation of `BadgerCache.Get`: `txn.Get` (not-found on absent or
expired keys), decode, then index the decoded map at the namespaced key. -/
def BadgerCache.Get (b : BadgerCache) (db : BadgerDB V) (now : Nat)
    (keyStr : Str) : Except CacheErr V :=
  let prefixedKey := b.prefixedKey keyStr
  match bGetRaw db prefixedKey now with
  | none => .error .notFound
  | some e =>
    match decodeValue e.value with
    | .error _ => .error .decodeFailed
    | .ok decoded =>
      match alistLookup decoded prefixedKey with
      | none => .error .decodedKeyMissing
      | some item => .ok item

/-- Translation of `BadgerCache.Exists`: true iff `txn.Get` succeeds. -/
def BadgerCache.Exists (b : BadgerCache) (db : BadgerDB V) (now : Nat)
    (keyStr : Str) : Bool :=
  (bGetRaw db (b.prefixedKey keyStr) now).isSome

/-- Translation of `BadgerCache.Delete`. -/
def BadgerCache.Delete (b : BadgerCache) (db : BadgerDB V) (keyStr : Str) :
    BadgerDB V :=
  ⟨alistErase db.entries (b.prefixedKey keyStr)⟩

/-- Translation of `BadgerCache.Expire`: inside one transaction, `txn.Get`
the item (its error — not-found on an absent or expired key — propagates),
read the current value and rewrite the entry with the new TTL. -/
def BadgerCache.Expire (b : BadgerCache) (db : BadgerDB V) (now : Nat)
    (keyStr : Str) (expiration : Nat) : Except CacheErr (BadgerDB V) :=
  let prefixedKey := b.prefixedKey keyStr
  match bGetRaw db prefixedKey now with
  | none => .error .notFound
  | some e =>
    .ok ⟨alistInsert db.entries prefixedKey ⟨e.value, now + expiration⟩⟩

/-- Translation of `BadgerCache.TTL`: not-found errors are wrapped into
"failed to retrieve TTL"; a positive `ExpiresAt` yields the remaining
duration (seconds), otherwise zero. -/
def BadgerCache.TTL (b : BadgerCache) (db : BadgerDB V) (now : Nat)
    (keyStr : Str) : Except CacheErr Int :=
  match bGetRaw db (b.prefixedKey keyStr) now with
  | none => .error .ttlFailed
  | some e =>
    .ok (if e.expiresAt > 0 then (e.expiresAt : Int) - (now : Int) else 0)

/-- Live entries as surfaced by a Badger iterator (expired entries are
skipped by the store). -/
def bLiveEntries (db : BadgerDB V) (now : Nat) : List (Str × BEntry V) :=
  db.entries.filter fun p => liveB now p.2

/-- Translation of `BadgerCache.Keys`: zero arguments lists every key with
byte prefix `Prefix ++ ":"`; one argument containing `*` wildcard-matches
each key's trimmed name; one argument without `*` is an exact-key existence
check; several arguments are each checked individually. -/
def BadgerCache.Keys (b : BadgerCache) (db : BadgerDB V) (now : Nat)
    (patternOrKey : List Str) : List Str :=
  match patternOrKey with
  | [] =>
    ((bLiveEntries db now).filter fun p =>
      isPfx (b.Prefix ++ [':']) p.1).map (·.1)
  | [pattern] =>
    if pattern.contains '*' then
      ((bLiveEntries db now).filter fun p =>
        isPfx (b.prefixedKey []) p.1
          && matchWildcard (trimPfx (b.Prefix ++ [':']) p.1) pattern).map (·.1)
    else
      if (bGetRaw db (b.prefixedKey pattern) now).isSome then
        [b.prefixedKey pattern]
      else []
  | keys =>
    keys.filterMap fun k =>
      if (bGetRaw db (b.prefixedKey k) now).isSome then
        some (b.prefixedKey k)
      else none

/-- Translation of `BadgerCache.KeysWithBatchSize`: a batch size of zero
defaults to 1000; the enumeration loops append a qualifying key and break
once the accumulated list reaches the batch size, i.e. they produce the
first `batchSize` elements of the corresponding full enumeration (the
single-exact-key branch has no batch check in the source and returns at most
one key). -/
def BadgerCache.KeysWithBatchSize (b : BadgerCache) (db : BadgerDB V)
    (now : Nat) (batchSize : Nat) (patternOrKey : List Str) : List Str :=
  let bs := if batchSize == 0 then 1000 else batchSize
  match patternOrKey with
  | [] => (BadgerCache.Keys b db now []).take bs
  | [pattern] =>
    if pattern.contains '*' then (BadgerCache.Keys b db now [pattern]).take bs
    else BadgerCache.Keys b db now [pattern]
  | keys => (BadgerCache.Keys b db now keys).take bs

/-- Translation of `deleteKeysMatchingPattern`: walk the live keys having
byte prefix `Split(pattern, "*")[0]`; when the pattern contains `*` skip
keys failing `matchWildcard` (on the full key); delete the others, stopping
as soon as the deletion count reaches the batch size.  Returns the count and
the store contents left behind. -/
def deleteKeysMatchingPattern (pattern : Str) (batchSize : Nat) (now : Nat) :
    List (Str × BEntry V) → Nat → Nat × List (Str × BEntry V)
  | [], deleted => (deleted, [])
  | e :: rest, deleted =>
    if liveB now e.2 && isPfx (splitStar pattern).headI e.1 then
      if pattern.contains '*' && !(matchWildcard e.1 pattern) then
        let r := deleteKeysMatchingPattern pattern batchSize now rest deleted
        (r.1, e :: r.2)
      else
        if deleted + 1 ≥ batchSize then (deleted + 1, rest)
        else deleteKeysMatchingPattern pattern batchSize now rest (deleted + 1)
    else
      let r := deleteKeysMatchingPattern pattern batchSize now rest deleted
      (r.1, e :: r.2)

/-- Translation of `emptyWithRetries`: in the source, a successful
transaction breaks the retry loop and the outer loop then breaks
unconditionally (the per-round deletion count never reaches the outer
loop's control), so in a conflict-free execution exactly one round of
`deleteFunc` runs and the call returns `nil`. -/
def emptyWithRetries (deleteFunc : BadgerDB V → Nat × BadgerDB V)
    (db : BadgerDB V) : Except CacheErr (BadgerDB V) :=
  .ok (deleteFunc db).2

/-- Translation of `BadgerCache.EmptyByMatch`: the pattern's text before the
first `*` is appended to `Prefix ++ ":"` and that string — which no longer
contains the `*` — is handed to `deleteKeysMatchingPattern` with batch size
10000 under `emptyWithRetries`. -/
def BadgerCache.EmptyByMatch (b : BadgerCache) (db : BadgerDB V) (now : Nat)
    (pattern : Str) : Except CacheErr (BadgerDB V) :=
  let pre := (splitStar pattern).headI
  let prefixedPattern := b.Prefix ++ ':' :: pre
  emptyWithRetries
    (fun st =>
      let r := deleteKeysMatchingPattern prefixedPattern 10000 now st.entries 0
      (r.1, ⟨r.2⟩))
    db

/-! ## Remote (Redis) backend

The remote store is a map from keys to entries carrying the gob payload and
an optional expiry (remaining seconds as tracked by the server; `none` = no
expiry).  The passage of time on the remote server is not modelled — no
claim in scope depends on remote expiry lapsing.  Command replies are
modelled per the Redis contract: `TTL` replies -2 for a missing key and -1
for a key without expiry; `EXPIRE` on a missing key replies 0 and changes
nothing (the source discards this reply). -/

/-- One Redis entry: gob payload plus optional expiry in seconds. -/
structure REntry (V : Type) where
  value : GobBytes V
  expiry : Option Int
deriving DecidableEq, Repr

/-- Contents of the remote store. -/
structure RedisDB (V : Type) where
  entries : List (Str × REntry V)
deriving DecidableEq, Repr

/-- The `RedisCache` receiver: its immutable key prefix. -/
structure RedisCache : Type where
  Prefix : Str
deriving DecidableEq, Repr

/-- Translation of `RedisCache.prefixedKey`: `fmt.Sprintf("%s:%s", Prefix, key)`. -/
def RedisCache.prefixedKey (rc : RedisCache) (key : Str) : Str :=
  rc.Prefix ++ ':' :: key

/-- One minute expressed in Go `time.Duration` nanoseconds. -/
def minuteNs : Int := 60000000000

/-- Translation of `int(d.Minutes())`: whole minutes of a duration,
truncated toward zero (Go's float-to-int conversion). -/
def goMinutes (d : Int) : Int := Int.tdiv d minuteNs

/-- Model of the server-side `EXPIRE key secs` command: a missing key is
untouched (reply 0); on an existing key a nonpositive ttl deletes the key,
otherwise the expiry is replaced. -/
def rExpireCmd (db : RedisDB V) (key : Str) (secs : Int) : RedisDB V :=
  match alistLookup db.entries key with
  | none => db
  | some e =>
    if secs ≤ 0 then ⟨alistErase db.entries key⟩
    else ⟨alistInsert db.entries key ⟨e.value, some secs⟩⟩

/-- Translation of `RedisCache.Set`: `SETEX` with `int(minutes)` when a TTL
is supplied, plain `SET` (which leaves no expiry) otherwise; the payload is
the encoded single-entry map keyed by the namespaced key. -/
def RedisCache.Set (rc : RedisCache) (db : RedisDB V) (keyStr : Str)
    (value : V) (expires : Option Int) : RedisDB V × Option RedisErr :=
  let prefixedKey := rc.prefixedKey keyStr
  let encodedData := encodeValue [(prefixedKey, value)]
  match expires with
  | some d =>
    (⟨alistInsert db.entries prefixedKey ⟨encodedData, some (goMinutes d)⟩⟩, none)
  | none =>
    (⟨alistInsert db.entries prefixedKey ⟨encodedData, none⟩⟩, none)

/-- Translation of `RedisCache.Get`: a missing key (`redis.ErrNil`) is a
cache miss returning `nil, nil`; otherwise decode and index the map at the
namespaced key (no presence check on the decoded map — a missing entry is
the `nil` zero value). -/
def RedisCache.Get (rc : RedisCache) (db : RedisDB V) (keyStr : Str) :
    Option V × Option RedisErr :=
  let prefixedKey := rc.prefixedKey keyStr
  match alistLookup db.entries prefixedKey with
  | none => (none, none)
  | some e =>
    match decodeValue e.value with
    | .error _ => (none, some .decodeFailed)
    | .ok result => (alistLookup result prefixedKey, none)

/-- Translation of `RedisCache.Exists` (`EXISTS` command). -/
def RedisCache.Exists (rc : RedisCache) (db : RedisDB V) (keyStr : Str) :
    Bool :=
  (alistLookup db.entries (rc.prefixedKey keyStr)).isSome

/-- Translation of `RedisCache.Delete` (`DEL`). -/
def RedisCache.Delete (rc : RedisCache) (db : RedisDB V) (keyStr : Str) :
    RedisDB V :=
  ⟨alistErase db.entries (rc.prefixedKey keyStr)⟩

/-- Translation of `RedisCache.Expire`: issues `EXPIRE key int(minutes)` and
ignores the integer reply, so the call returns no error whether or not the
key exists. -/
def RedisCache.Expire (rc : RedisCache) (db : RedisDB V) (keyStr : Str)
    (expiration : Int) : RedisDB V × Option RedisErr :=
  (rExpireCmd db (rc.prefixedKey keyStr) (goMinutes expiration), none)

/-- Translation of `RedisCache.TTL`: reads the integer `TTL` reply (-2
missing, -1 no expiry, otherwise the remaining seconds) and scales it by
`time.Minute`. -/
def RedisCache.TTL (rc : RedisCache) (db : RedisDB V) (keyStr : Str) :
    Int × Option RedisErr :=
  let reply : Int :=
    match alistLookup db.entries (rc.prefixedKey keyStr) with
    | none => -2
    | some e =>
      match e.expiry with
      | none => -1
      | some s => s
  (reply * minuteNs, none)

/-- Translation of `RedisCache.Update`: `EXISTS` gate returning the distinct
"key does not exist" error on an absent key; otherwise `SET` (clearing any
expiry) followed by an optional `EXPIRE int(minutes)`. -/
def RedisCache.Update (rc : RedisCache) (db : RedisDB V) (keyStr : Str)
    (value : V) (expires : Option Int) : RedisDB V × Option RedisErr :=
  let prefixedKey := rc.prefixedKey keyStr
  if (alistLookup db.entries prefixedKey).isSome then
    let db1 : RedisDB V :=
      ⟨alistInsert db.entries prefixedKey ⟨encodeValue [(prefixedKey, value)], none⟩⟩
    match expires with
    | some d => (rExpireCmd db1 prefixedKey (goMinutes d), none)
    | none => (db1, none)
  else (db, some .keyNotExist)

/-- Translation of `RedisCache.getKeys`: cursor `SCAN` with
`MATCH pattern ++ "*"`, accumulating every key of the store that matches the
glob. -/
def RedisCache.getKeys (db : RedisDB V) (pattern : Str) : List Str :=
  (db.entries.map (·.1)).filter fun key => globMatch (pattern ++ ['*']) key

/-- Translation of `RedisCache.Keys`: zero arguments scan with
`Prefix ++ "*"`; one argument delegates to `KEYS` on the namespaced pattern;
several arguments are individual `EXISTS` checks. -/
def RedisCache.Keys (rc : RedisCache) (db : RedisDB V)
    (patternOrKey : List Str) : List Str × Option RedisErr :=
  match patternOrKey with
  | [] => (RedisCache.getKeys db (rc.Prefix ++ ['*']), none)
  | [pattern] =>
    ((db.entries.map (·.1)).filter
      (fun key => globMatch (rc.prefixedKey pattern) key), none)
  | keys =>
    (keys.filterMap fun k =>
      if (alistLookup db.entries (rc.prefixedKey k)).isSome then
        some (rc.prefixedKey k)
      else none, none)

/-- Translation of `RedisCache.KeysWithBatchSize`: the method body is
`return nil, nil`. -/
def RedisCache.KeysWithBatchSize (rc : RedisCache) (db : RedisDB V)
    (batchSize : Nat) (patternOrKey : List Str) :
    List Str × Option RedisErr :=
  ([], none)

/-! ## Helper lemmas -/

theorem splitStar_ne_nil (s : Str) : splitStar s ≠ [] := by
  cases s with
  | nil => simp [splitStar]
  | cons c rest =>
    simp only [splitStar]
    split <;> simp

theorem two_le_length_splitStar {p : Str} (h : '*' ∈ p) :
    2 ≤ (splitStar p).length := by
  induction p with
  | nil => cases h
  | cons c rest ih =>
    simp only [splitStar]
    by_cases hc : c = '*'
    · have hne := splitStar_ne_nil rest
      cases hps : splitStar rest with
      | nil => exact absurd hps hne
      | cons a l => simp [hc, hps]
    · have hmem : '*' ∈ rest := by
        rcases List.mem_cons.mp h with h' | h'
        · exact absurd h'.symm hc
        · exact h'
      have h2 := ih hmem
      cases hps : splitStar rest with
      | nil => exact absurd hps (splitStar_ne_nil rest)
      | cons a l =>
        rw [hps] at h2
        simp only [List.length_cons] at h2
        simp [hc, hps]
        omega

theorem isPfx_append_self (a t : Str) : isPfx a (a ++ t) = true := by
  induction a with
  | nil => rfl
  | cons x a' ih => simp [isPfx, ih]

theorem isPfx_length_le (a b c : Str) (h1 : isPfx a c = true)
    (h2 : isPfx b c = true) (hlen : a.length ≤ b.length) :
    isPfx a b = true := by
  induction a generalizing b c with
  | nil => rfl
  | cons x a' ih =>
    cases b with
    | nil => simp at hlen
    | cons y b' =>
      cases c with
      | nil => simp [isPfx] at h1
      | cons z c' =>
        simp only [isPfx, Bool.and_eq_true, beq_iff_eq] at h1 h2 ⊢
        obtain ⟨hxz, h1'⟩ := h1
        obtain ⟨hyz, h2'⟩ := h2
        refine ⟨hxz.trans hyz.symm, ih b' c' h1' h2' ?_⟩
        simpa using hlen

theorem isPfx_of_append_left (a b c : Str) (h : isPfx (a ++ b) c = true) :
    isPfx a c = true := by
  induction a generalizing c with
  | nil => rfl
  | cons x a' ih =>
    cases c with
    | nil => simp [isPfx] at h
    | cons z c' =>
      simp only [List.cons_append, isPfx, Bool.and_eq_true] at h ⊢
      exact ⟨h.1, ih c' h.2⟩

/-- Two incomparable prefixes cannot cross: if neither namespace string is a
prefix of the other, the first is not a prefix of anything extending the
second. -/
theorem noCross (p1 p2 t : Str) (h12 : isPfx p1 p2 = false)
    (h21 : isPfx p2 p1 = false) : isPfx p1 (p2 ++ t) = false := by
  cases hv : isPfx p1 (p2 ++ t) with
  | false => rfl
  | true =>
    exfalso
    rcases Nat.le_total p1.length p2.length with hle | hle
    · have hp := isPfx_length_le p1 p2 (p2 ++ t) hv (isPfx_append_self p2 t) hle
      rw [h12] at hp
      exact absurd hp (by decide)
    · have hp := isPfx_length_le p2 p1 (p2 ++ t) (isPfx_append_self p2 t) hv hle
      rw [h21] at hp
      exact absurd hp (by decide)

theorem globLiteralChar_ne (c : Char) (h : globLiteralChar c = true) :
    c ≠ '*' ∧ c ≠ '?' ∧ c ≠ '[' ∧ c ≠ '\\' := by
  simp only [globLiteralChar, Bool.not_eq_true', Bool.or_eq_false_iff,
    beq_eq_false_iff_ne, ne_eq] at h
  exact ⟨h.1.1.1, h.1.1.2, h.1.2, h.2⟩

theorem globMatchAux_literal_nil (c : Char) (ps : Str)
    (hlit : globLiteralChar c = true) :
    globMatchAux (ps.length + 1) (c :: ps) [] = false := by
  obtain ⟨hc1, hc2, hc3, hc4⟩ := globLiteralChar_ne c hlit
  simp [globMatchAux, if_neg hc1, if_neg hc2, if_neg hc3, if_neg hc4]

theorem globMatchAux_literal_cons (c : Char) (ps : Str) (d : Char) (s' : Str)
    (hlit : globLiteralChar c = true) :
    globMatchAux (ps.length + 1) (c :: ps) (d :: s')
      = (c == d && globMatchAux ps.length ps s') := by
  obtain ⟨hc1, hc2, hc3, hc4⟩ := globLiteralChar_ne c hlit
  simp [globMatchAux, if_neg hc1, if_neg hc2, if_neg hc3, if_neg hc4]

/-- A pattern segment containing only literal characters (no glob
metacharacter) followed by anything glob-matches only strings it
byte-prefixes. -/
theorem globMatch_append_isPfx (p q s : Str)
    (hmeta : p.all globLiteralChar = true)
    (h : globMatch (p ++ q) s = true) : isPfx p s = true := by
  induction p generalizing s with
  | nil => rfl
  | cons c p' ih =>
    rw [List.all_cons, Bool.and_eq_true] at hmeta
    obtain ⟨hc, hall⟩ := hmeta
    rw [List.cons_append] at h
    simp only [globMatch, List.length_cons] at h
    cases s with
    | nil =>
      rw [globMatchAux_literal_nil c (p' ++ q) hc] at h
      exact absurd h (by decide)
    | cons d s' =>
      rw [globMatchAux_literal_cons c (p' ++ q) d s' hc,
        Bool.and_eq_true] at h
      simp only [isPfx, Bool.and_eq_true]
      exact ⟨h.1, ih s' hall h.2⟩

theorem alistLookup_insert (l : List (Str × α)) (k : Str) (v : α) :
    alistLookup (alistInsert l k v) k = some v := by
  induction l with
  | nil => simp [alistInsert, alistLookup]
  | cons hd t ih =>
    obtain ⟨k', v'⟩ := hd
    by_cases hk : k = k'
    · simp [alistInsert, hk, alistLookup]
    · simp [alistInsert, hk, alistLookup, ih]

/-! ## Claim theorems -/

/-- C8: the wildcard matcher satisfies the spec's reference vectors:
`matchWildcard "abc" "abc"` is true, `matchWildcard "abcdef" "abc*"` is
true, `matchWildcard "xabc" "abc*"` is false, and `matchWildcard s "*"` is
true for every non-empty string `s`. -/
theorem c8_wildcard_vectors :
    matchWildcard ['a','b','c'] ['a','b','c'] = true
    ∧ matchWildcard ['a','b','c','d','e','f'] ['a','b','c','*'] = true
    ∧ matchWildcard ['x','a','b','c'] ['a','b','c','*'] = false
    ∧ ∀ s : Str, s ≠ [] → matchWildcard s ['*'] = true := by
  refine ⟨by decide, by decide, by decide, ?_⟩
  intro s _
  rfl

/-- Witness for C8: the universally quantified clause applied to the
concrete non-empty string `"x"`. -/
theorem c8_wildcard_vectors_witness :
    (['x'] : Str) ≠ [] ∧ matchWildcard ['x'] ['*'] = true :=
  ⟨by decide, c8_wildcard_vectors.2.2.2 ['x'] (by decide)⟩

/-- C10: for every pattern containing at least one `*`, the matcher returns
true exactly when the string starts with the pattern text before the first
`*` and, when the text between the first and second `*` is non-empty, also
ends with that text; only the first two parts of the split pattern are
consulted (so trailing text after a second `*` is ignored), and the pattern
`"*"` matches every string, the empty one included. -/
theorem c10_wildcard_star_semantics :
    (∀ s p : Str, '*' ∈ p →
      matchWildcard s p =
        (isPfx ((splitStar p).headI) s &&
          (((splitStar p).getD 1 []).isEmpty
            || isSfx ((splitStar p).getD 1 []) s)))
    ∧ ∀ s : Str, matchWildcard s ['*'] = true := by
  constructor
  · intro s p hp
    have h2 := two_le_length_splitStar hp
    have hne : ((splitStar p).length == 1) = false := by
      simp only [beq_eq_false_iff_ne, ne_eq]
      omega
    have hlt : 1 < (splitStar p).length := by omega
    simp only [matchWildcard, hne, Bool.false_eq_true, if_false,
      decide_eq_true hlt, Bool.true_and]
    cases hpre : isPfx ((splitStar p).headI) s
    · simp
    · cases hem : ((splitStar p).getD 1 []).isEmpty
      · cases hsf : isSfx ((splitStar p).getD 1 []) s <;> simp
      · simp
  · intro s
    rfl

/-- Witness for C10: the semantics applied to the concrete string `"axb"`
and pattern `"a*b*c"`, whose trailing `"c"` is ignored. -/
theorem c10_wildcard_star_semantics_witness :
    matchWildcard ['a','x','b'] ['a','*','b','*','c'] = true := by
  have h := c10_wildcard_star_semantics.1 ['a','x','b'] ['a','*','b','*','c']
    (by decide)
  rw [h]
  decide

/-- C9: on both backends, `Set k v` followed by `Get k` on the same cache
instance returns exactly `v` — the value round-trips through the
single-entry-map envelope keyed by the full namespaced key. -/
theorem c9_set_get_roundtrip (V : Type) (bc : BadgerCache) (rc : RedisCache)
    (dbB : BadgerDB V) (dbR : RedisDB V) (now : Nat) (k : Str) (v : V) :
    BadgerCache.Get bc (BadgerCache.Set bc dbB now k v none) now k = .ok v
    ∧ RedisCache.Get rc (RedisCache.Set rc dbR k v none).1 k = (some v, none) := by
  constructor
  · simp [BadgerCache.Get, BadgerCache.Set, bGetRaw, alistLookup_insert,
      liveB, decodeValue, encodeValue, alistLookup]
  · simp [RedisCache.Get, RedisCache.Set, alistLookup_insert, decodeValue,
      encodeValue, alistLookup]

/-- C5: a miss behaves differently on the two backends — the embedded `Get`
returns a not-found error (and no value), while the remote `Get` returns no
value and no error, for every absent (never written, deleted, or expired)
key. -/
theorem c5_get_miss_divergence (V : Type) (bc : BadgerCache)
    (rc : RedisCache) (dbB : BadgerDB V) (dbR : RedisDB V) (now : Nat)
    (kB kR : Str)
    (hB : bGetRaw dbB (bc.prefixedKey kB) now = none)
    (hR : alistLookup dbR.entries (rc.prefixedKey kR) = none) :
    BadgerCache.Get bc dbB now kB = .error .notFound
    ∧ RedisCache.Get rc dbR kR = (none, none) := by
  constructor
  · simp [BadgerCache.Get, hB]
  · simp [RedisCache.Get, hR]

/-- Witness for C5: the divergence at the concrete absent key `"k"` on empty
stores. -/
theorem c5_get_miss_divergence_witness :
    BadgerCache.Get (⟨['p']⟩ : BadgerCache) (⟨[]⟩ : BadgerDB Nat) 0 ['k']
      = .error .notFound
    ∧ RedisCache.Get (⟨['p']⟩ : RedisCache) (⟨[]⟩ : RedisDB Nat) ['k']
      = (none, none) :=
  c5_get_miss_divergence Nat ⟨['p']⟩ ⟨['p']⟩ ⟨[]⟩ ⟨[]⟩ 0 ['k'] ['k'] rfl rfl

/-- C3 (counterexample): on the remote backend a key that exists with no
expiry does not get TTL zero — the `TTL` reply `-1` is scaled by
`time.Minute`, so the call returns minus one minute (and no error). -/
def c3RedisDB : RedisDB Nat :=
  ⟨[(['p', ':', 'k'], ⟨[(['p', ':', 'k'], 5)], none⟩)]⟩

/-- C3 is false as stated: the remote backend returns a nonzero duration for
an existing key with no expiry. -/
theorem c3_ttl_counterexample :
    (RedisCache.TTL (⟨['p']⟩ : RedisCache) c3RedisDB ['k']).1 ≠ 0
    ∧ RedisCache.TTL (⟨['p']⟩ : RedisCache) c3RedisDB ['k']
      = (-60000000000, none) := by
  exact ⟨by decide, rfl⟩

/-- C3 (amended): for a key that exists with no expiry, the embedded
backend's `TTL` returns zero with no error, while the remote backend
returns minus one minute (the no-expiry sentinel `-1` scaled by
`time.Minute`) with no error. -/
theorem c3_ttl_no_expiry (V : Type) (bc : BadgerCache) (rc : RedisCache)
    (dbB : BadgerDB V) (dbR : RedisDB V) (now : Nat) (kB kR : Str)
    (eB : BEntry V) (eR : REntry V)
    (hB : alistLookup dbB.entries (bc.prefixedKey kB) = some eB)
    (hB0 : eB.expiresAt = 0)
    (hR : alistLookup dbR.entries (rc.prefixedKey kR) = some eR)
    (hR0 : eR.expiry = none) :
    BadgerCache.TTL bc dbB now kB = .ok 0
    ∧ RedisCache.TTL rc dbR kR = (-minuteNs, none) := by
  constructor
  · simp [BadgerCache.TTL, bGetRaw, hB, liveB, hB0]
  · simp [RedisCache.TTL, hR, hR0, minuteNs]

/-- Witness for C3 (amended): evaluated on one-key stores whose entry has no
expiry. -/
theorem c3_ttl_no_expiry_witness :
    BadgerCache.TTL (⟨['p']⟩ : BadgerCache)
        (⟨[(['p', ':', 'k'], ⟨[(['p', ':', 'k'], (5 : Nat))], 0⟩)]⟩) 7 ['k']
      = .ok 0
    ∧ RedisCache.TTL (⟨['p']⟩ : RedisCache) c3RedisDB ['k']
      = (-minuteNs, none) :=
  c3_ttl_no_expiry Nat ⟨['p']⟩ ⟨['p']⟩
    ⟨[(['p', ':', 'k'], ⟨[(['p', ':', 'k'], (5 : Nat))], 0⟩)]⟩ c3RedisDB 7
    ['k'] ['k'] ⟨[(['p', ':', 'k'], (5 : Nat))], 0⟩ ⟨[(['p', ':', 'k'], 5)], none⟩
    rfl rfl rfl rfl

/-- C6 (counterexample): on the remote backend, `Expire` of an absent key
returns no error — the `EXPIRE` reply `0` is discarded — so the claim that
both backends return an error is false. -/
theorem c6_expire_counterexample :
    RedisCache.Expire (⟨['p']⟩ : RedisCache) (⟨[]⟩ : RedisDB Nat) ['k']
      (120 * minuteNs) = (⟨[]⟩, none) := rfl

/-- C6 (amended): on the embedded backend `Expire` of an absent (or expired)
key returns an error, and on a live key it rewrites the entry with the new
TTL inside one transaction, leaving the stored value unchanged; on the
remote backend `Expire` of an absent key returns no error and leaves the
store unchanged. -/
theorem c6_expire_amended (V : Type) (bc : BadgerCache) (rc : RedisCache)
    (dbB1 dbB2 : BadgerDB V) (e : BEntry V) (dbR : RedisDB V) (now : Nat)
    (k1 k2 kR : Str) (d : Nat) (dR : Int)
    (h1 : bGetRaw dbB1 (bc.prefixedKey k1) now = none)
    (h2 : bGetRaw dbB2 (bc.prefixedKey k2) now = some e)
    (hR : alistLookup dbR.entries (rc.prefixedKey kR) = none) :
    BadgerCache.Expire bc dbB1 now k1 d = .error .notFound
    ∧ BadgerCache.Expire bc dbB2 now k2 d
      = .ok ⟨alistInsert dbB2.entries (bc.prefixedKey k2) ⟨e.value, now + d⟩⟩
    ∧ RedisCache.Expire rc dbR kR dR = (dbR, none) := by
  refine ⟨?_, ?_, ?_⟩
  · simp [BadgerCache.Expire, h1]
  · simp [BadgerCache.Expire, h2]
  · simp [RedisCache.Expire, rExpireCmd, hR]

/-- Witness for C6 (amended): concrete absent and live keys. -/
theorem c6_expire_amended_witness :
    BadgerCache.Expire (⟨['p']⟩ : BadgerCache) (⟨[]⟩ : BadgerDB Nat) 0 ['k'] 60
      = .error .notFound
    ∧ BadgerCache.Expire (⟨['p']⟩ : BadgerCache)
        (⟨[(['p', ':', 'j'], ⟨[(['p', ':', 'j'], (3 : Nat))], 0⟩)]⟩) 0 ['j'] 60
      = .ok ⟨alistInsert [(['p', ':', 'j'], ⟨[(['p', ':', 'j'], (3 : Nat))], 0⟩)]
          (['p', ':', 'j']) ⟨[(['p', ':', 'j'], (3 : Nat))], 0 + 60⟩⟩
    ∧ RedisCache.Expire (⟨['p']⟩ : RedisCache) (⟨[]⟩ : RedisDB Nat) ['k'] minuteNs
      = (⟨[]⟩, none) :=
  c6_expire_amended Nat ⟨['p']⟩ ⟨['p']⟩ ⟨[]⟩
    ⟨[(['p', ':', 'j'], ⟨[(['p', ':', 'j'], (3 : Nat))], 0⟩)]⟩
    ⟨[(['p', ':', 'j'], (3 : Nat))], 0⟩ ⟨[]⟩ 0 ['k'] ['j'] ['k'] 60 minuteNs
    rfl rfl rfl

/-- C7 (counterexample): with prefixes `"a"` and `"ab"` — one a string
prefix of the other — a key written through the `"ab"` instance appears in
the `"a"` instance's no-argument `Keys()` on the remote backend, so the
claim is false as stated. -/
def c7RedisDB : RedisDB Nat :=
  (RedisCache.Set (⟨['a', 'b']⟩ : RedisCache) ⟨[]⟩ ['k'] 1 none).1

/-- C7 is false as stated: the namespaced key of the `"ab"` instance shows
up under the `"a"` instance. -/
theorem c7_isolation_counterexample :
    (RedisCache.Keys (⟨['a']⟩ : RedisCache) c7RedisDB []).1
      = [['a', 'b', ':', 'k']] := by decide

/-- C7 (amended): for two instances whose prefixes contain no glob
metacharacter (`*`, `?`, `[`, `\`) and are such that neither is a string
prefix of the other, a key namespaced under one prefix never appears in the
other instance's no-argument `Keys()`, on either backend and for every
store state.  Excluding every metacharacter (not only `*`) is necessary:
the remote scan pattern is built by plain concatenation, so a prefix such
as `"?"` would glob-match other instances' keys. -/
theorem c7_namespace_isolation (V : Type) (p1 p2 k : Str)
    (dbB : BadgerDB V) (dbR : RedisDB V) (now : Nat)
    (h12 : isPfx p1 p2 = false) (h21 : isPfx p2 p1 = false)
    (hmeta : p1.all globLiteralChar = true) :
    (p2 ++ ':' :: k) ∉ BadgerCache.Keys ⟨p1⟩ dbB now []
    ∧ (p2 ++ ':' :: k) ∉ (RedisCache.Keys ⟨p1⟩ dbR []).1 := by
  constructor
  · intro hmem
    simp only [BadgerCache.Keys, List.mem_map] at hmem
    obtain ⟨pr, hpr, heq⟩ := hmem
    rw [List.mem_filter] at hpr
    have hpfx : isPfx (p1 ++ [':']) pr.1 = true := hpr.2
    rw [heq] at hpfx
    have hp1 : isPfx p1 (p2 ++ ':' :: k) = true :=
      isPfx_of_append_left p1 [':'] (p2 ++ ':' :: k) hpfx
    rw [noCross p1 p2 (':' :: k) h12 h21] at hp1
    exact absurd hp1 (by decide)
  · intro hmem
    simp only [RedisCache.Keys, RedisCache.getKeys, List.mem_filter] at hmem
    have hg : globMatch ((p1 ++ ['*']) ++ ['*']) (p2 ++ ':' :: k) = true :=
      hmem.2
    rw [List.append_assoc] at hg
    have hp1 : isPfx p1 (p2 ++ ':' :: k) = true :=
      globMatch_append_isPfx p1 (['*'] ++ ['*']) (p2 ++ ':' :: k) hmeta hg
    rw [noCross p1 p2 (':' :: k) h12 h21] at hp1
    exact absurd hp1 (by decide)

/-- Witness for C7 (amended): prefixes `"a"` and `"b"` on one-key stores. -/
theorem c7_namespace_isolation_witness :
    (['b', ':', 'k'] : Str) ∉
      BadgerCache.Keys (⟨['a']⟩ : BadgerCache)
        (⟨[(['b', ':', 'k'], ⟨[(['b', ':', 'k'], (1 : Nat))], 0⟩)]⟩) 0 []
    ∧ (['b', ':', 'k'] : Str) ∉
      (RedisCache.Keys (⟨['a']⟩ : RedisCache)
        (⟨[(['b', ':', 'k'], ⟨[(['b', ':', 'k'], (1 : Nat))], none⟩)]⟩) []).1 :=
  c7_namespace_isolation Nat ['a'] ['b'] ['k']
    ⟨[(['b', ':', 'k'], ⟨[(['b', ':', 'k'], (1 : Nat))], 0⟩)]⟩
    ⟨[(['b', ':', 'k'], ⟨[(['b', ':', 'k'], (1 : Nat))], none⟩)]⟩ 0
    (by decide) (by decide) (by decide)

/-- C1: the store used to exhibit the bulk-deletion bug — two live keys
under prefix `"p"`, of which only `"az"` matches the pattern `"a*z"`. -/
def c1BadgerDB : BadgerDB Nat :=
  ⟨[(['p', ':', 'a', '1'], ⟨[(['p', ':', 'a', '1'], 1)], 0⟩),
    (['p', ':', 'a', 'z'], ⟨[(['p', ':', 'a', 'z'], 2)], 0⟩)]⟩

/-- C1: `EmptyByMatch "a*z"` must delete only the matching key `"az"` and
keep `"a1"`; the code instead deletes every key whose byte prefix is the
pattern text before the first `*` (the wildcard is stripped before the
deletion pass), so the non-matching key `"a1"` is deleted as well — the
result is the empty store, not the store containing `"p:a1"`. -/
theorem c1_emptyByMatch_overdeletes :
    matchWildcard ['a', '1'] ['a', '*', 'z'] = false
    ∧ BadgerCache.EmptyByMatch (⟨['p']⟩ : BadgerCache) c1BadgerDB 0
        ['a', '*', 'z'] = .ok ⟨[]⟩ := ⟨rfl, rfl⟩

/-- C2: `Update` of an absent key on the embedded backend performs no
existence check — it returns success and creates the key (which then
exists), while the remote backend correctly returns the distinct "key does
not exist" error without creating it. -/
theorem c2_update_creates_missing_key :
    BadgerCache.Update (⟨['p']⟩ : BadgerCache) (⟨[]⟩ : BadgerDB Nat) 0 ['k'] 7
        none
      = .ok ⟨[(['p', ':', 'k'], ⟨[(['p', ':', 'k'], 7)], 0⟩)]⟩
    ∧ BadgerCache.Exists (⟨['p']⟩ : BadgerCache)
        (⟨[(['p', ':', 'k'], ⟨[(['p', ':', 'k'], 7)], 0⟩)]⟩ : BadgerDB Nat) 0
        ['k'] = true
    ∧ RedisCache.Update (⟨['p']⟩ : RedisCache) (⟨[]⟩ : RedisDB Nat) ['k'] 7 none
      = (⟨[]⟩, some .keyNotExist) := ⟨rfl, rfl, rfl⟩

/-- C4: the remote store used to exhibit the batch-size stub — three keys
under prefix `"p"`. -/
def c4RedisDB : RedisDB Nat :=
  ⟨[(['p', ':', 'k', '1'], ⟨[], none⟩),
    (['p', ':', 'k', '2'], ⟨[], none⟩),
    (['p', ':', 'k', '3'], ⟨[], none⟩)]⟩

/-- C4: the embedded store with the same three keys. -/
def c4BadgerDB : BadgerDB Nat :=
  ⟨[(['p', ':', 'k', '1'], ⟨[], 0⟩),
    (['p', ':', 'k', '2'], ⟨[], 0⟩),
    (['p', ':', 'k', '3'], ⟨[], 0⟩)]⟩

/-- C4: on a keyspace of three qualifying keys, the embedded backend's
`KeysWithBatchSize 2` returns exactly two results (and batch size zero
defaults to 1000, returning all three), but the remote backend's method is
a stub returning no keys at all, so the claim fails on the remote
backend. -/
theorem c4_batchsize_stub :
    (BadgerCache.KeysWithBatchSize (⟨['p']⟩ : BadgerCache) c4BadgerDB 0 2
        []).length = 2
    ∧ (BadgerCache.KeysWithBatchSize (⟨['p']⟩ : BadgerCache) c4BadgerDB 0 0
        []).length = 3
    ∧ (RedisCache.Keys (⟨['p']⟩ : RedisCache) c4RedisDB []).1.length = 3
    ∧ RedisCache.KeysWithBatchSize (⟨['p']⟩ : RedisCache) c4RedisDB 2 []
      = ([], none) := ⟨rfl, rfl, by decide, rfl⟩

end Sauri
